import Mathlib

/-!
# Verification of `qiskit/aqua/utils/run_circuits.py`

A shallow embedding of the orchestration core of `run_circuits.py`:
the chunker (`_split_qobj_to_qobjs`), the result combiner
(`_combine_result_objects`), the submission guard (`_safe_submit_qobj`),
the status prober (`_safe_get_job_status`) and the polling / recovery /
direct-fetch paths of `run_qobj`.

The backend is an external collaborator reached only through effectful
calls (`backend.run` via `run_on_backend`, `job.job_id()`, `job.status()`,
`job.queue_position()`, `job.result()`, `job.qobj()`,
`backend.retrieve_job`).  Each such call is modelled by consuming the next
scripted response from a `World` value that carries one response list per
kind of call; unbounded `while True:` loops are modelled with explicit
fuel, a `diverge` outcome standing for non-termination (fuel exhaustion or
an exhausted response script).  Python exceptions are modelled as explicit
`raised...` outcomes that propagate, exactly where the source lets them
escape a `try` block.

Experiment payloads, qobj config/header and inner result records are
opaque to the source code and are modelled by type parameters.
-/

namespace RunCircuits

/-- `qiskit.providers.JobStatus`: the closed job-status enumeration of
Terra that `run_qobj` branches on. -/
inductive JobStatus where
  | INITIALIZING
  | QUEUED
  | VALIDATING
  | RUNNING
  | DONE
  | CANCELLED
  | ERROR
deriving DecidableEq, Repr

/-- `qiskit.providers.jobstatus.JOB_FINAL_STATES = (DONE, CANCELLED, ERROR)`. -/
def JOB_FINAL_STATES : List JobStatus :=
  [JobStatus.DONE, JobStatus.CANCELLED, JobStatus.ERROR]

/-- A `QasmQobj`: shared id/config/header metadata plus the ordered list of
experiments.  `E`, `C`, `H` are the (opaque) experiment, config and header
types. -/
structure QasmQobj (E C H : Type) where
  qobj_id : String
  config : C
  header : H
  experiments : List E
deriving DecidableEq

/-- A Terra `Result` object as used by the source: a `success` flag and the
inner per-experiment result records stored in its `.results` list. -/
structure ResultObj (R : Type) where
  success : Bool
  results : List R
deriving DecidableEq

/-- The failure of `_combine_result_objects` on an empty input: `results[0]`
raises an `IndexError` (the spec calls this the InvalidState / EmptyResultSet
programming-contract violation). -/
inductive CombineError where
  | emptyResultSet
deriving DecidableEq, Repr

/-- `_combine_result_objects` (lines 61-75): with exactly one result return
it unchanged; otherwise deep-copy the first result and extend its `.results`
list with every subsequent result's `.results`, in order.  On an empty input
the subscript `results[0]` fails. -/
def _combine_result_objects {R : Type} (results : List (ResultObj R)) :
    Except CombineError (ResultObj R) :=
  match results with
  | [] => Except.error CombineError.emptyResultSet
  | [r] => Except.ok r
  | r :: rest =>
      Except.ok { r with results := r.results ++ (rest.map (fun x => x.results)).flatten }

/-- `int(np.ceil(M / chunk_size))` (line 115), exact ceiling division on
naturals.  The source divides by `chunk_size` so `chunk_size ≥ 1` is assumed
throughout (0 would raise `ZeroDivisionError` in Python). -/
def num_chunks (M chunk_size : Nat) : Nat := (M + chunk_size - 1) / chunk_size

/-- `_split_qobj_to_qobjs` (lines 113-130).  With one chunk the original
qobj object itself is returned; otherwise each chunk is a deep copy of a
template carrying the parent's config/header, a freshly generated uuid
(`uuid i` models `str(uuid.uuid4())` of the `i`-th chunk) and the slice
`experiments[i*K:(i+1)*K]`.  The source raises `AquaError` for non-`QasmQobj`
inputs; the embedding is typed to the single supported representation. -/
def _split_qobj_to_qobjs {E C H : Type} (uuid : Nat → String)
    (qobj : QasmQobj E C H) (chunk_size : Nat) : List (QasmQobj E C H) :=
  if num_chunks qobj.experiments.length chunk_size = 1 then
    [qobj]
  else
    (List.range (num_chunks qobj.experiments.length chunk_size)).map (fun i =>
      { qobj_id := uuid i
        config := qobj.config
        header := qobj.header
        experiments := (qobj.experiments.drop (i * chunk_size)).take chunk_size })

/-- A job identifier, as returned by `job.job_id()`. -/
abbrev JobId := String

/-- A backend job handle.  `handle` is an identity tag distinguishing
distinct job objects handed out by the backend; `qobj` is the payload the
job was submitted with, recoverable through `job.qobj()` (line 270). -/
structure JobHandle (Q : Type) where
  handle : Nat
  qobj : Q
deriving DecidableEq

/-- One submission attempt of `_safe_submit_qobj`, i.e. one
`run_on_backend` call followed by the `job.job_id()` read:
* `runRaise e` — `run_on_backend` (the backend `run` operation) raises;
* `idFail e` — the job is returned but `job.job_id()` raises
  (`JobError` and any other exception are handled identically, lines
  142-147, differing only in the log text);
* `accepted h jid` — the backend returns job object `h` whose
  `job_id()` read succeeds with `jid`. -/
inductive SubmitResp where
  | runRaise (e : String)
  | idFail (e : String)
  | accepted (handle : Nat) (jid : JobId)
deriving DecidableEq, Repr

/-- Recogniser for the `idFail` submission response. -/
def SubmitResp.isIdFail : SubmitResp → Bool
  | SubmitResp.idFail _ => true
  | _ => false

/-- Outcome of `_safe_submit_qobj`. -/
inductive SubmitOut (Q : Type) where
  | ok (job : JobHandle Q) (jid : JobId)
  | raised (e : String)
  | diverge
deriving DecidableEq

/-- `_safe_submit_qobj` (lines 133-149): loop forever; call
`run_on_backend` (NOT inside the `try` block — if it raises, the exception
escapes), then try to read `job.job_id()`; a failure of the id read is
logged and the whole attempt is repeated immediately.  Returns the job and
its id on the first attempt whose id read succeeds.  The second component
is the unconsumed remainder of the response script. -/
def _safe_submit_qobj {Q : Type} (qobj : Q) :
    List SubmitResp → SubmitOut Q × List SubmitResp
  | [] => (SubmitOut.diverge, [])
  | SubmitResp.runRaise e :: rest => (SubmitOut.raised e, rest)
  | SubmitResp.idFail _ :: rest => _safe_submit_qobj qobj rest
  | SubmitResp.accepted h jid :: rest => (SubmitOut.ok ⟨h, qobj⟩ jid, rest)

/-- One response to a `job.status()` call inside `_safe_get_job_status`:
success, a `JobError` (the backend's expected job-error kind), or any other
exception. -/
inductive StatusResp where
  | ok (s : JobStatus)
  | jobError (e : String)
  | other (e : String)
deriving DecidableEq, Repr

/-- Recogniser for the `jobError` status response. -/
def StatusResp.isJobError : StatusResp → Bool
  | StatusResp.jobError _ => true
  | _ => false

/-- Outcome of `_safe_get_job_status`; `raised jid cause` is the
`AquaError("FAILURE: job id: {} ... Unknown error: ({})")` carrying the job
identifier and the underlying cause. -/
inductive ProbeOut where
  | ok (s : JobStatus)
  | raised (jid : JobId) (cause : String)
  | diverge
deriving DecidableEq

/-- `_safe_get_job_status` (lines 152-167): loop forever; try
`job.status()`; on `JobError` log a warning and `time.sleep(5)` then retry;
on any other exception raise `AquaError` with the job id and the cause.
Returns (outcome, list of performed sleep durations, unconsumed script). -/
def _safe_get_job_status (jid : JobId) :
    List StatusResp → ProbeOut × List Nat × List StatusResp
  | [] => (ProbeOut.diverge, [], [])
  | StatusResp.ok s :: rest => (ProbeOut.ok s, [], rest)
  | StatusResp.jobError _ :: rest =>
      let r := _safe_get_job_status jid rest
      (r.1, 5 :: r.2.1, r.2.2)
  | StatusResp.other e :: rest => (ProbeOut.raised jid e, [], rest)

/-- One response to a `job.queue_position()` call: either the call raises
(`raisedPos`), or it returns a value (`value none` models Python `None`,
`value (some n)` an integer position). -/
inductive QueueResp where
  | raisedPos (e : String)
  | value (v : Option Nat)
deriving DecidableEq, Repr

/-- The scripted environment: one response list per kind of backend call,
each consumed front-to-back by the corresponding call site. -/
structure World (Q R : Type) where
  statuses : List StatusResp
  queues : List QueueResp
  results : List (ResultObj R)
  retrieves : List (JobHandle Q)
  submits : List SubmitResp
deriving DecidableEq

/-- Observable events of `run_qobj`:
* `callback jid s pos h` — an invocation of the optional `job_callback`
  with `(job_id, job_status, queue_position, job)` (the job identified by
  its handle tag);
* `resubmit dead payload new newJid` — the CANCELLED/ERROR recovery path
  resubmitted `payload` (read back from dead job `dead` via `job.qobj()`),
  obtaining new job `new` with id `newJid`;
* `fetched h` — a blocking `job.result(**qjob_config)` call on job `h`. -/
inductive Ev (Q : Type) where
  | callback (jid : JobId) (s : JobStatus) (pos : Option Nat) (handle : Nat)
  | resubmit (deadHandle : Nat) (payload : Q) (newHandle : Nat) (newJid : JobId)
  | fetched (handle : Nat)
deriving DecidableEq

/-- Outcome of the inner polling loop (lines 236-251). -/
inductive PollOut where
  | finalSt (s : JobStatus)
  | raisedStatus (jid : JobId) (cause : String)
  | raisedQueue (e : String)
  | diverge
deriving DecidableEq

/-- The inner polling loop of `run_qobj` (lines 236-251): probe the status
through `_safe_get_job_status`; `queue_position = 0`; if the status is
final, fire the callback once more (with position 0) and stop; if it is
QUEUED, call `job.queue_position()` — the call is NOT wrapped in any
`try`, so if it raises the exception escapes the loop — then fire the
callback with the returned position; otherwise fire the callback with
position 0; sleep and poll again. -/
def pollLoop {Q R : Type} (jid : JobId) (job : JobHandle Q) :
    Nat → World Q R → PollOut × List (Ev Q) × World Q R
  | 0, w => (PollOut.diverge, [], w)
  | fuel+1, w =>
    match _safe_get_job_status jid w.statuses with
    | (ProbeOut.diverge, _, srest) =>
        (PollOut.diverge, [], { w with statuses := srest })
    | (ProbeOut.raised j c, _, srest) =>
        (PollOut.raisedStatus j c, [], { w with statuses := srest })
    | (ProbeOut.ok s, _, srest) =>
        if s ∈ JOB_FINAL_STATES then
          (PollOut.finalSt s, [Ev.callback jid s (some 0) job.handle],
            { w with statuses := srest })
        else if s = JobStatus.QUEUED then
          match w.queues with
          | [] => (PollOut.diverge, [], { w with statuses := srest, queues := [] })
          | QueueResp.raisedPos e :: qrest =>
              (PollOut.raisedQueue e, [], { w with statuses := srest, queues := qrest })
          | QueueResp.value v :: qrest =>
              let r := pollLoop jid job fuel { w with statuses := srest, queues := qrest }
              (r.1, Ev.callback jid s v job.handle :: r.2.1, r.2.2)
        else
          let r := pollLoop jid job fuel { w with statuses := srest }
          (r.1, Ev.callback jid s (some 0) job.handle :: r.2.1, r.2.2)

/-- Outcome of the DONE-branch fetch loop (lines 255-265). -/
inductive FetchOut (R : Type) where
  | done (r : ResultObj R)
  | diverge
deriving DecidableEq

/-- The fetch loop run after a DONE status (lines 255-265): call
`job.result(**qjob_config)`; if `result.success`, keep it and stop;
otherwise re-fetch the job by identifier through `backend.retrieve_job`
and try again. -/
def fetchLoop {Q R : Type} (jid : JobId) :
    JobHandle Q → Nat → World Q R → FetchOut R × List (Ev Q) × World Q R
  | _, 0, w => (FetchOut.diverge, [], w)
  | job, fuel+1, w =>
    match w.results with
    | [] => (FetchOut.diverge, [], w)
    | r :: rrest =>
      if r.success then
        (FetchOut.done r, [Ev.fetched job.handle], { w with results := rrest })
      else
        match w.retrieves with
        | [] => (FetchOut.diverge, [Ev.fetched job.handle], { w with results := rrest })
        | j2 :: jrest =>
          let t := fetchLoop jid j2 fuel { w with results := rrest, retrieves := jrest }
          (t.1, Ev.fetched job.handle :: t.2.1, t.2.2)

/-- Outcome of one iteration of the outer per-job recovery loop. -/
inductive StepOut (Q R : Type) where
  | finished (r : ResultObj R)
  | resubmitted (job : JobHandle Q) (jid : JobId)
  | raisedStatus (jid : JobId) (cause : String)
  | raisedQueue (e : String)
  | raisedSubmit (e : String)
  | diverge
deriving DecidableEq

/-- One iteration of the outer `while True:` recovery loop of `run_qobj`
(lines 233-286): poll to a final status; on DONE run the fetch loop; on
any other final status (CANCELLED, ERROR, or the unknown-status branch)
read the payload back from the dead job via `job.qobj()` (line 270) and
resubmit it through `_safe_submit_qobj`, yielding the replacement job and
id for this chunk. -/
def recoveryStep {Q R : Type} (jid : JobId) (job : JobHandle Q) (fuel : Nat)
    (w : World Q R) : StepOut Q R × List (Ev Q) × World Q R :=
  match pollLoop jid job fuel w with
  | (PollOut.diverge, ev, w1) => (StepOut.diverge, ev, w1)
  | (PollOut.raisedStatus a c, ev, w1) => (StepOut.raisedStatus a c, ev, w1)
  | (PollOut.raisedQueue e, ev, w1) => (StepOut.raisedQueue e, ev, w1)
  | (PollOut.finalSt s, ev, w1) =>
    if s = JobStatus.DONE then
      match fetchLoop jid job fuel w1 with
      | (FetchOut.done r, ev2, w2) => (StepOut.finished r, ev ++ ev2, w2)
      | (FetchOut.diverge, ev2, w2) => (StepOut.diverge, ev ++ ev2, w2)
    else
      match _safe_submit_qobj job.qobj w1.submits with
      | (SubmitOut.ok j2 jid2, s2) =>
          (StepOut.resubmitted j2 jid2,
           ev ++ [Ev.resubmit job.handle job.qobj j2.handle jid2],
           { w1 with submits := s2 })
      | (SubmitOut.raised e, s2) => (StepOut.raisedSubmit e, ev, { w1 with submits := s2 })
      | (SubmitOut.diverge, s2) => (StepOut.diverge, ev, { w1 with submits := s2 })

/-- Outcome of the full per-job recovery loop. -/
inductive RecOut (R : Type) where
  | ok (r : ResultObj R)
  | raisedStatus (jid : JobId) (cause : String)
  | raisedQueue (e : String)
  | raisedSubmit (e : String)
  | diverge
deriving DecidableEq

/-- The full per-job recovery loop (outer `while True:` of lines 233-286):
iterate `recoveryStep`; a `resubmitted` step replaces this chunk's job and
job id (`jobs[idx] = job; job_ids[idx] = job_id`) and returns to polling
with the new pair. -/
def recoverJob {Q R : Type} :
    JobId → JobHandle Q → Nat → World Q R → RecOut R × List (Ev Q) × World Q R
  | _, _, 0, w => (RecOut.diverge, [], w)
  | jid, job, fuel+1, w =>
    match recoveryStep jid job fuel w with
    | (StepOut.finished r, ev, w1) => (RecOut.ok r, ev, w1)
    | (StepOut.resubmitted j2 jid2, ev, w1) =>
        let r2 := recoverJob jid2 j2 fuel w1
        (r2.1, ev ++ r2.2.1, r2.2.2)
    | (StepOut.raisedStatus a c, ev, w1) => (RecOut.raisedStatus a c, ev, w1)
    | (StepOut.raisedQueue e, ev, w1) => (RecOut.raisedQueue e, ev, w1)
    | (StepOut.raisedSubmit e, ev, w1) => (RecOut.raisedSubmit e, ev, w1)
    | (StepOut.diverge, ev, w1) => (RecOut.diverge, ev, w1)

/-- Outcome of submitting every chunk up front (lines 219-223). -/
inductive SubmitAllOut (Q : Type) where
  | ok (jobs : List (JobHandle Q × JobId))
  | raised (e : String)
  | diverge
deriving DecidableEq

/-- The submission phase of `run_qobj` (lines 219-223): submit every chunk
through `_safe_submit_qobj`, collecting all (job, job_id) pairs in order;
an escaping exception aborts the whole phase. -/
def submitAll {Q : Type} :
    List Q → List SubmitResp → SubmitAllOut Q × List SubmitResp
  | [], script => (SubmitAllOut.ok [], script)
  | q :: qs, script =>
    match _safe_submit_qobj q script with
    | (SubmitOut.ok j jid, s1) =>
      match submitAll qs s1 with
      | (SubmitAllOut.ok rest, s2) => (SubmitAllOut.ok ((j, jid) :: rest), s2)
      | (SubmitAllOut.raised e, s2) => (SubmitAllOut.raised e, s2)
      | (SubmitAllOut.diverge, s2) => (SubmitAllOut.diverge, s2)
    | (SubmitOut.raised e, s1) => (SubmitAllOut.raised e, s1)
    | (SubmitOut.diverge, s1) => (SubmitAllOut.diverge, s1)

/-- The non-autorecover branch of `run_qobj` (lines 287-290): one blocking
`job.result(**qjob_config)` call per job, in order, appended without any
inspection of the success flag.  `none` models an exhausted response
script. -/
def fetchDirect {Q R : Type} :
    List (JobHandle Q × JobId) → World Q R →
      Option (List (ResultObj R)) × List (Ev Q) × World Q R
  | [], w => (some [], [], w)
  | (job, _) :: rest, w =>
    match w.results with
    | [] => (none, [], w)
    | r :: rrest =>
      let t := fetchDirect rest { w with results := rrest }
      (t.1.map (fun rs => r :: rs), Ev.fetched job.handle :: t.2.1, t.2.2)

/-- Outcome of driving the recovery loop over every job (lines 230-286). -/
inductive LoopOut (R : Type) where
  | ok (rs : List (ResultObj R))
  | raisedStatus (jid : JobId) (cause : String)
  | raisedQueue (e : String)
  | raisedSubmit (e : String)
  | diverge
deriving DecidableEq

/-- The autorecover branch of `run_qobj` (lines 230-286): run the recovery
loop for each submitted job in order, collecting one result per job. -/
def runAll {Q R : Type} :
    List (JobHandle Q × JobId) → Nat → World Q R → LoopOut R × List (Ev Q) × World Q R
  | [], _, w => (LoopOut.ok [], [], w)
  | (job, jid) :: rest, fuel, w =>
    match recoverJob jid job fuel w with
    | (RecOut.ok r, ev, w1) =>
      match runAll rest fuel w1 with
      | (LoopOut.ok rs, ev2, w2) => (LoopOut.ok (r :: rs), ev ++ ev2, w2)
      | (LoopOut.raisedStatus a c, ev2, w2) => (LoopOut.raisedStatus a c, ev ++ ev2, w2)
      | (LoopOut.raisedQueue e, ev2, w2) => (LoopOut.raisedQueue e, ev ++ ev2, w2)
      | (LoopOut.raisedSubmit e, ev2, w2) => (LoopOut.raisedSubmit e, ev ++ ev2, w2)
      | (LoopOut.diverge, ev2, w2) => (LoopOut.diverge, ev ++ ev2, w2)
    | (RecOut.raisedStatus a c, ev, w1) => (LoopOut.raisedStatus a c, ev, w1)
    | (RecOut.raisedQueue e, ev, w1) => (LoopOut.raisedQueue e, ev, w1)
    | (RecOut.raisedSubmit e, ev, w1) => (LoopOut.raisedSubmit e, ev, w1)
    | (RecOut.diverge, ev, w1) => (LoopOut.diverge, ev, w1)

/-- Outcome of `run_qobj`.  `valueError` is the `ValueError` for a missing
backend; `raisedCombine` is the (unreachable, guarded by `if results`)
`IndexError` of the combiner. -/
inductive RunOut (R : Type) where
  | ok (r : Option (ResultObj R))
  | valueError
  | raisedStatus (jid : JobId) (cause : String)
  | raisedQueue (e : String)
  | raisedSubmit (e : String)
  | raisedCombine
  | diverge
deriving DecidableEq

/-- Line 292: `result = _combine_result_objects(results) if results else None`. -/
def runFinal {R : Type} (rs : List (ResultObj R)) : RunOut R :=
  match rs with
  | [] => RunOut.ok none
  | r :: rest =>
    match _combine_result_objects (r :: rest) with
    | Except.ok c => RunOut.ok (some c)
    | Except.error _ => RunOut.raisedCombine

/-- The backend capabilities `run_qobj` consults:
`simulator` models `is_simulator_backend(backend)`, `localBackend` models
`is_local_backend(backend)` and `max_experiments` models
`backend.configuration().max_experiments`. -/
structure Backend where
  simulator : Bool
  localBackend : Bool
  max_experiments : Nat
deriving DecidableEq

/-- `sys.maxsize` (line 210). -/
def maxsize : Nat := 9223372036854775807

/-- Lines 206-212: the effective maximum number of circuits per job — the
`QISKIT_AQUA_MAX_CIRCUITS_PER_JOB` environment override if set, else
`sys.maxsize` for a local backend, else the backend-reported
`max_experiments`. -/
def effectiveMax (b : Backend) (maxOverride : Option Nat) : Nat :=
  match maxOverride with
  | some m => m
  | none => if b.localBackend then maxsize else b.max_experiments

/-- `run_qobj` (lines 170-294): validate the backend; compute the chunk
size; split; submit every chunk up front; then either drive the recovery
loop per job (`with_autorecover = not is_simulator_backend(backend)`) or
perform one direct blocking fetch per job; finally combine the collected
results, or return `None` when there are none.  A missing backend (or one
that is not a `BaseBackend`) yields `ValueError`. -/
def run_qobj {E C H R : Type} (uuid : Nat → String) (qobj : QasmQobj E C H)
    (backend : Option Backend) (maxOverride : Option Nat) (fuel : Nat)
    (w : World (QasmQobj E C H) R) :
    RunOut R × List (Ev (QasmQobj E C H)) × World (QasmQobj E C H) R :=
  match backend with
  | none => (RunOut.valueError, [], w)
  | some b =>
    let qobjs := _split_qobj_to_qobjs uuid qobj (effectiveMax b maxOverride)
    match submitAll qobjs w.submits with
    | (SubmitAllOut.raised e, s1) => (RunOut.raisedSubmit e, [], { w with submits := s1 })
    | (SubmitAllOut.diverge, s1) => (RunOut.diverge, [], { w with submits := s1 })
    | (SubmitAllOut.ok jobs, s1) =>
      if b.simulator then
        match fetchDirect jobs { w with submits := s1 } with
        | (some rs, ev, w2) => (runFinal rs, ev, w2)
        | (none, ev, w2) => (RunOut.diverge, ev, w2)
      else
        match runAll jobs fuel { w with submits := s1 } with
        | (LoopOut.ok rs, ev, w2) => (runFinal rs, ev, w2)
        | (LoopOut.raisedStatus a c, ev, w2) => (RunOut.raisedStatus a c, ev, w2)
        | (LoopOut.raisedQueue e, ev, w2) => (RunOut.raisedQueue e, ev, w2)
        | (LoopOut.raisedSubmit e, ev, w2) => (RunOut.raisedSubmit e, ev, w2)
        | (LoopOut.diverge, ev, w2) => (RunOut.diverge, ev, w2)

/-! ## Arithmetic facts about `num_chunks` (exact ceiling division) -/

theorem le_num_chunks_mul (M K : Nat) (hK : 1 ≤ K) : M ≤ num_chunks M K * K := by
  have hd := Nat.div_add_mod (M + K - 1) K
  have hm : (M + K - 1) % K < K := Nat.mod_lt _ (by omega)
  have hc : K * ((M + K - 1) / K) = (M + K - 1) / K * K := Nat.mul_comm _ _
  unfold num_chunks
  omega

theorem num_chunks_eq_one (M K : Nat) (hM : 1 ≤ M) (hMK : M ≤ K) :
    num_chunks M K = 1 := by
  unfold num_chunks
  exact Nat.div_eq_of_lt_le (by omega) (by omega)

theorem le_of_num_chunks_eq_one (M K : Nat) (hK : 1 ≤ K)
    (h1 : num_chunks M K = 1) : M ≤ K := by
  unfold num_chunks at h1
  have h2 : M + K - 1 < 2 * K := by
    have h3 := (Nat.div_lt_iff_lt_mul (by omega : 0 < K)).mp
      (by omega : (M + K - 1) / K < 2)
    omega
  omega

theorem num_chunks_zero (K : Nat) (hK : 1 ≤ K) : num_chunks 0 K = 0 := by
  unfold num_chunks
  exact Nat.div_eq_of_lt (by omega)

/-- Flattening the `K`-sized slices `l[i*K:(i+1)*K]` for `i < n` recovers
`l` whenever `l` has at most `n * K` elements. -/
theorem flatten_range_chunks {α : Type} (K : Nat) :
    ∀ (n : Nat) (l : List α), l.length ≤ n * K →
      ((List.range n).map (fun i => (l.drop (i * K)).take K)).flatten = l := by
  intro n
  induction n with
  | zero =>
      intro l hl
      have hnil : l = [] := List.length_eq_zero.mp (by omega)
      subst hnil
      simp
  | succ n ih =>
      intro l hl
      rw [List.range_succ_eq_map]
      simp only [List.map_cons, List.flatten_cons, Nat.zero_mul, List.drop_zero,
        List.map_map]
      have hmap : (List.range n).map ((fun i => (l.drop (i * K)).take K) ∘ Nat.succ)
          = (List.range n).map (fun i => (((l.drop K).drop (i * K)).take K)) := by
        apply List.map_congr_left
        intro a _
        simp only [Function.comp_apply, List.drop_drop, Nat.succ_mul]
        rw [Nat.add_comm (a * K) K]
      have hlen : (l.drop K).length ≤ n * K := by
        rw [List.length_drop]
        have hx : (n + 1) * K = n * K + K := by ring
        omega
      rw [hmap, ih (l.drop K) hlen, List.take_append_drop]

/-- Claim C3: for every batch of `M ≥ 0` experiments and chunk size
`K ≥ 1`, the chunker produces `ceil(M/K)` chunks, each of size at most
`K`, whose experiment lists concatenate in order to the original batch's
experiment list exactly, and whose sizes sum to `M`. -/
theorem split_qobj_spec {E C H : Type} (uuid : Nat → String) (qobj : QasmQobj E C H)
    (K : Nat) (hK : 1 ≤ K) :
    (_split_qobj_to_qobjs uuid qobj K).length = num_chunks qobj.experiments.length K ∧
    (∀ c ∈ _split_qobj_to_qobjs uuid qobj K, c.experiments.length ≤ K) ∧
    ((_split_qobj_to_qobjs uuid qobj K).map (fun c => c.experiments)).flatten
        = qobj.experiments ∧
    ((_split_qobj_to_qobjs uuid qobj K).map (fun c => c.experiments.length)).sum
        = qobj.experiments.length := by
  have hflat : ((_split_qobj_to_qobjs uuid qobj K).map (fun c => c.experiments)).flatten
      = qobj.experiments := by
    unfold _split_qobj_to_qobjs
    by_cases h1 : num_chunks qobj.experiments.length K = 1
    · simp [h1]
    · rw [if_neg h1, List.map_map]
      exact flatten_range_chunks K _ _ (le_num_chunks_mul _ _ hK)
  refine ⟨?_, ?_, hflat, ?_⟩
  · unfold _split_qobj_to_qobjs
    by_cases h1 : num_chunks qobj.experiments.length K = 1
    · simp [h1]
    · rw [if_neg h1]
      simp
  · intro c hc
    unfold _split_qobj_to_qobjs at hc
    by_cases h1 : num_chunks qobj.experiments.length K = 1
    · rw [if_pos h1] at hc
      simp only [List.mem_singleton] at hc
      subst hc
      exact le_of_num_chunks_eq_one _ _ hK h1
    · rw [if_neg h1] at hc
      simp only [List.mem_map] at hc
      obtain ⟨i, _, hci⟩ := hc
      subst hci
      simp only [List.length_take]
      omega
  · have hlen := congrArg List.length hflat
    simp only [List.length_flatten, List.map_map] at hlen
    simpa [Function.comp] using hlen

/-- Claim C3 witness: batch of 5 experiments and chunk size 2. -/
theorem split_qobj_spec_witness :
    1 ≤ 2 ∧
    ((_split_qobj_to_qobjs (fun _ => "u")
        (⟨"q", 0, 0, [1, 2, 3, 4, 5]⟩ : QasmQobj Nat Nat Nat) 2).length
      = num_chunks
          (⟨"q", 0, 0, [1, 2, 3, 4, 5]⟩ : QasmQobj Nat Nat Nat).experiments.length 2 ∧
     (∀ c ∈ _split_qobj_to_qobjs (fun _ => "u")
        (⟨"q", 0, 0, [1, 2, 3, 4, 5]⟩ : QasmQobj Nat Nat Nat) 2,
        c.experiments.length ≤ 2) ∧
     ((_split_qobj_to_qobjs (fun _ => "u")
        (⟨"q", 0, 0, [1, 2, 3, 4, 5]⟩ : QasmQobj Nat Nat Nat) 2).map
          (fun c => c.experiments)).flatten
      = (⟨"q", 0, 0, [1, 2, 3, 4, 5]⟩ : QasmQobj Nat Nat Nat).experiments ∧
     ((_split_qobj_to_qobjs (fun _ => "u")
        (⟨"q", 0, 0, [1, 2, 3, 4, 5]⟩ : QasmQobj Nat Nat Nat) 2).map
          (fun c => c.experiments.length)).sum
      = (⟨"q", 0, 0, [1, 2, 3, 4, 5]⟩ : QasmQobj Nat Nat Nat).experiments.length) :=
  ⟨by decide, split_qobj_spec (fun _ => "u") _ 2 (by decide)⟩

/-- Claim C9 counterexample: at `M = 0 ≤ K = 1` the chunker does NOT
produce one chunk identical to the input batch — it produces no chunk at
all (`num_chunks 0 1 = 0`, so the single-chunk branch is not taken and
`range 0` is empty). -/
theorem split_single_chunk_claim_false :
    ¬ (_split_qobj_to_qobjs (fun _ => "u")
        (⟨"q", 0, 0, []⟩ : QasmQobj Nat Nat Nat) 1
      = [(⟨"q", 0, 0, []⟩ : QasmQobj Nat Nat Nat)]) := by
  decide

/-- Claim C9 (amended): for every batch of size `M` with `1 ≤ M ≤ K` the
chunker produces exactly one chunk, and that chunk is the input batch
object itself (the single-chunk branch returns `[qobj]`, no copy and no
fresh identifier). -/
theorem split_single_chunk_identity {E C H : Type} (uuid : Nat → String)
    (qobj : QasmQobj E C H) (K : Nat) (hM : 1 ≤ qobj.experiments.length)
    (hMK : qobj.experiments.length ≤ K) :
    _split_qobj_to_qobjs uuid qobj K = [qobj] := by
  have h1 : num_chunks qobj.experiments.length K = 1 := num_chunks_eq_one _ _ hM hMK
  unfold _split_qobj_to_qobjs
  rw [if_pos h1]

/-- Claim C9 (amended) witness: two experiments, chunk size three. -/
theorem split_single_chunk_identity_witness :
    1 ≤ (⟨"q", 7, 8, [1, 2]⟩ : QasmQobj Nat Nat Nat).experiments.length ∧
    (⟨"q", 7, 8, [1, 2]⟩ : QasmQobj Nat Nat Nat).experiments.length ≤ 3 ∧
    _split_qobj_to_qobjs (fun _ => "u") (⟨"q", 7, 8, [1, 2]⟩ : QasmQobj Nat Nat Nat) 3
      = [(⟨"q", 7, 8, [1, 2]⟩ : QasmQobj Nat Nat Nat)] :=
  ⟨by decide, by decide,
    split_single_chunk_identity (fun _ => "u") _ 3 (by decide) (by decide)⟩

/-- Claim C1: the result combiner fails exactly on the empty input
sequence, with the EmptyResultSet error (the `IndexError` of
`results[0]`, the spec's InvalidState / programming-contract violation);
on every non-empty input it succeeds. -/
theorem combine_error_iff_empty {R : Type} (results : List (ResultObj R)) :
    _combine_result_objects results = Except.error CombineError.emptyResultSet
      ↔ results = [] := by
  cases results with
  | nil => simp [_combine_result_objects]
  | cons r rest => cases rest <;> simp [_combine_result_objects]

/-- Claim C4: for every non-empty input sequence the combiner succeeds and
its output's record sequence is the concatenation, in input order, of the
inputs' record sequences; and on a singleton input the output is the very
input object itself. -/
theorem combine_concat_records {R : Type} (results : List (ResultObj R))
    (hne : results ≠ []) :
    (∃ out, _combine_result_objects results = Except.ok out ∧
        out.results = (results.map (fun x => x.results)).flatten) ∧
    (∀ r, results = [r] → _combine_result_objects results = Except.ok r) := by
  cases results with
  | nil => exact absurd rfl hne
  | cons r rest =>
    cases rest with
    | nil =>
      refine ⟨⟨r, rfl, by simp⟩, ?_⟩
      intro x hx
      simp only [List.cons.injEq, and_true] at hx
      subst hx
      rfl
    | cons s t =>
      refine ⟨⟨_, rfl, ?_⟩, ?_⟩
      · simp [_combine_result_objects]
      · intro x hx
        simp at hx

/-- Claim C4 witness: two concrete chunk results. -/
theorem combine_concat_records_witness :
    ([⟨true, [1, 2]⟩, ⟨false, [3]⟩] : List (ResultObj Nat)) ≠ [] ∧
    ((∃ out,
        _combine_result_objects
            ([⟨true, [1, 2]⟩, ⟨false, [3]⟩] : List (ResultObj Nat))
          = Except.ok out ∧
        out.results
          = (([⟨true, [1, 2]⟩, ⟨false, [3]⟩] : List (ResultObj Nat)).map
              (fun x => x.results)).flatten) ∧
     (∀ r, ([⟨true, [1, 2]⟩, ⟨false, [3]⟩] : List (ResultObj Nat)) = [r] →
        _combine_result_objects ([⟨true, [1, 2]⟩, ⟨false, [3]⟩] : List (ResultObj Nat))
          = Except.ok r)) :=
  ⟨by decide, combine_concat_records _ (by decide)⟩

/-- Whenever `_safe_submit_qobj` returns a job, that job carries exactly
the payload it was asked to submit. -/
theorem safe_submit_ok_payload {Q : Type} (qobj : Q) :
    ∀ (script rest : List SubmitResp) (j : JobHandle Q) (jid : JobId),
      _safe_submit_qobj qobj script = (SubmitOut.ok j jid, rest) → j.qobj = qobj := by
  intro script
  induction script with
  | nil =>
    intro rest j jid h
    simp [_safe_submit_qobj] at h
  | cons a t ih =>
    intro rest j jid h
    cases a with
    | runRaise e => simp [_safe_submit_qobj] at h
    | idFail e => exact ih rest j jid (by simpa [_safe_submit_qobj] using h)
    | accepted hh jj =>
      simp only [_safe_submit_qobj, Prod.mk.injEq, SubmitOut.ok.injEq] at h
      obtain ⟨⟨h1, _⟩, _⟩ := h
      rw [← h1]

/-- Claim C2 counterexample: a failure of the backend run operation itself
(`run_on_backend` raising, modelled by `runRaise`) is NOT recovered — it
propagates out of `_safe_submit_qobj`, because line 136 sits outside the
`try` block of lines 139-147. -/
theorem submit_run_failure_propagates :
    _safe_submit_qobj (42 : Nat) [SubmitResp.runRaise "boom"]
      = (SubmitOut.raised "boom", []) := by
  rfl

/-- Claim C2 (amended): any failure while reading back the job identifier
from the returned handle is recovered by unbounded immediate retry and
never propagates out of the submit operation — after any number of
id-read failures, the first attempt whose id read succeeds yields that job
and id; a failure of the backend run operation itself, by contrast,
propagates out. -/
theorem safe_submit_retries_id_failures {Q : Type} (qobj : Q)
    (pre rest : List SubmitResp) (h : Nat) (jid : JobId)
    (hpre : ∀ a ∈ pre, a.isIdFail = true) :
    _safe_submit_qobj qobj (pre ++ SubmitResp.accepted h jid :: rest)
        = (SubmitOut.ok ⟨h, qobj⟩ jid, rest) ∧
    (∀ e rest2, _safe_submit_qobj qobj (SubmitResp.runRaise e :: rest2)
        = (SubmitOut.raised e, rest2)) := by
  constructor
  · induction pre with
    | nil => rfl
    | cons a t ih =>
      have ha := hpre a (by simp)
      cases a with
      | runRaise e => simp [SubmitResp.isIdFail] at ha
      | accepted hh jj => simp [SubmitResp.isIdFail] at ha
      | idFail e =>
        have ht : ∀ a ∈ t, a.isIdFail = true := fun a hat => hpre a (by simp [hat])
        simpa [_safe_submit_qobj] using ih ht
  · intro e rest2
    rfl

/-- Claim C2 (amended) witness: two id-read failures, then success; plus a
propagating run failure. -/
theorem safe_submit_retries_id_failures_witness :
    (∀ a ∈ [SubmitResp.idFail "x", SubmitResp.idFail "y"], a.isIdFail = true) ∧
    (_safe_submit_qobj (42 : Nat)
        ([SubmitResp.idFail "x", SubmitResp.idFail "y"]
          ++ SubmitResp.accepted 3 "a" :: [])
        = (SubmitOut.ok ⟨3, 42⟩ "a", []) ∧
     (∀ e rest2, _safe_submit_qobj (42 : Nat) (SubmitResp.runRaise e :: rest2)
        = (SubmitOut.raised e, rest2))) :=
  ⟨by decide, safe_submit_retries_id_failures 42 _ [] 3 "a" (by decide)⟩

/-- Claim C7: the status prober retries a `JobError` status-query failure
without bound — logging, sleeping the fixed 5 time units between attempts
— and returns the first successfully obtained status without raising;
whereas any other kind of status-query failure immediately aborts with the
FailedToGetStatus `AquaError` carrying the job identifier and the
underlying cause. -/
theorem safe_get_job_status_spec (jid : JobId) (pre : List StatusResp)
    (hpre : ∀ a ∈ pre, a.isJobError = true) :
    (∀ s rest, _safe_get_job_status jid (pre ++ StatusResp.ok s :: rest)
        = (ProbeOut.ok s, List.replicate pre.length 5, rest)) ∧
    (∀ e rest, _safe_get_job_status jid (pre ++ StatusResp.other e :: rest)
        = (ProbeOut.raised jid e, List.replicate pre.length 5, rest)) := by
  induction pre with
  | nil => exact ⟨fun s rest => rfl, fun e rest => rfl⟩
  | cons a t ih =>
    have ha := hpre a (by simp)
    cases a with
    | ok s => simp [StatusResp.isJobError] at ha
    | other e => simp [StatusResp.isJobError] at ha
    | jobError e =>
      have ht : ∀ a ∈ t, a.isJobError = true := fun a hat => hpre a (by simp [hat])
      obtain ⟨ih1, ih2⟩ := ih ht
      constructor
      · intro s rest
        simp [_safe_get_job_status, ih1 s rest, List.replicate_succ]
      · intro e2 rest
        simp [_safe_get_job_status, ih2 e2 rest, List.replicate_succ]

/-- Claim C7 witness: three consecutive `JobError` failures, then a
successful DONE status — returned without raising, with a 5-unit sleep
after each failure; and after the same three failures, an unexpected
failure aborts with the job id and cause. -/
theorem safe_get_job_status_spec_witness :
    (∀ a ∈ [StatusResp.jobError "t1", StatusResp.jobError "t2", StatusResp.jobError "t3"],
        a.isJobError = true) ∧
    (∀ s rest,
        _safe_get_job_status "job7"
          ([StatusResp.jobError "t1", StatusResp.jobError "t2", StatusResp.jobError "t3"]
            ++ StatusResp.ok s :: rest)
        = (ProbeOut.ok s, List.replicate 3 5, rest)) ∧
    (∀ e rest,
        _safe_get_job_status "job7"
          ([StatusResp.jobError "t1", StatusResp.jobError "t2", StatusResp.jobError "t3"]
            ++ StatusResp.other e :: rest)
        = (ProbeOut.raised "job7" e, List.replicate 3 5, rest)) :=
  ⟨by decide,
    (safe_get_job_status_spec "job7" _ (by decide)).1,
    (safe_get_job_status_spec "job7" _ (by decide)).2⟩

/-- Claim C8 counterexample: with a QUEUED status and a
`job.queue_position()` call that raises, the polling loop neither recovers
nor reports position 0 — the failure propagates out of the loop (the call
at line 245 is not inside any `try`), and no observer callback fires for
that poll. -/
theorem poll_queue_failure_propagates :
    pollLoop "j" (⟨1, 0⟩ : JobHandle Nat) 1
        (⟨[StatusResp.ok JobStatus.QUEUED], [QueueResp.raisedPos "boom"], [], [], []⟩ :
          World Nat Nat)
      = (PollOut.raisedQueue "boom", [], (⟨[], [], [], [], []⟩ : World Nat Nat)) := by
  rfl

/-- Claim C8 (amended): for every poll that observes a QUEUED status the
queue position is queried; a failure of the query is fatal — it propagates
out of the polling loop with no observer report for that poll — while a
successful query's returned value (which may be `None`, not necessarily 0)
is reported to the observer and polling continues. -/
theorem poll_queued_position_behavior {Q R : Type} (jid : JobId) (job : JobHandle Q)
    (fuel : Nat) (w : World Q R) (srest : List StatusResp)
    (hst : w.statuses = StatusResp.ok JobStatus.QUEUED :: srest) :
    (∀ e qrest, w.queues = QueueResp.raisedPos e :: qrest →
        pollLoop jid job (fuel+1) w
          = (PollOut.raisedQueue e, [], { w with statuses := srest, queues := qrest })) ∧
    (∀ v qrest, w.queues = QueueResp.value v :: qrest →
        pollLoop jid job (fuel+1) w
          = ((pollLoop jid job fuel { w with statuses := srest, queues := qrest }).1,
             Ev.callback jid JobStatus.QUEUED v job.handle ::
               (pollLoop jid job fuel { w with statuses := srest, queues := qrest }).2.1,
             (pollLoop jid job fuel { w with statuses := srest, queues := qrest }).2.2)) := by
  constructor
  · intro e qrest hq
    simp [pollLoop, hst, hq, _safe_get_job_status, JOB_FINAL_STATES]
  · intro v qrest hq
    simp [pollLoop, hst, hq, _safe_get_job_status, JOB_FINAL_STATES]

/-- Claim C8 (amended) witness: a successful queue-position query
returning position 4 is reported to the observer as 4. -/
theorem poll_queued_position_behavior_witness :
    (⟨[StatusResp.ok JobStatus.QUEUED], [QueueResp.value (some 4)], [], [], []⟩ :
        World Nat Nat).statuses = StatusResp.ok JobStatus.QUEUED :: [] ∧
    pollLoop "j" (⟨1, 0⟩ : JobHandle Nat) 1
        (⟨[StatusResp.ok JobStatus.QUEUED], [QueueResp.value (some 4)], [], [], []⟩ :
          World Nat Nat)
      = ((pollLoop "j" (⟨1, 0⟩ : JobHandle Nat) 0 (⟨[], [], [], [], []⟩ : World Nat Nat)).1,
         Ev.callback "j" JobStatus.QUEUED (some 4) 1 ::
           (pollLoop "j" (⟨1, 0⟩ : JobHandle Nat) 0
             (⟨[], [], [], [], []⟩ : World Nat Nat)).2.1,
         (pollLoop "j" (⟨1, 0⟩ : JobHandle Nat) 0
           (⟨[], [], [], [], []⟩ : World Nat Nat)).2.2) :=
  ⟨rfl, (poll_queued_position_behavior "j" ⟨1, 0⟩ 0 _ [] rfl).2 (some 4) [] rfl⟩

/-- Claim C5: whenever the poll phase ends in a final status other than
DONE (i.e. CANCELLED, ERROR, or the unknown-status branch), the recovery
loop reads the chunk payload back from the dead job handle itself
(`job.qobj()`), re-submits it through the submission guard, replaces this
chunk's job handle and job identifier with the returned ones, and resumes
polling with them; the dead-job condition itself is never surfaced — the
loop's outcome is whatever the continued loop produces. -/
theorem recovery_resubmits_dead_job {Q R : Type} (jid : JobId) (job : JobHandle Q)
    (fuel : Nat) (w : World Q R) (s : JobStatus) (cbs : List (Ev Q)) (w1 : World Q R)
    (j2 : JobHandle Q) (jid2 : JobId) (s2 : List SubmitResp)
    (hpoll : pollLoop jid job fuel w = (PollOut.finalSt s, cbs, w1))
    (hdead : s ≠ JobStatus.DONE)
    (hsub : _safe_submit_qobj job.qobj w1.submits = (SubmitOut.ok j2 jid2, s2)) :
    j2.qobj = job.qobj ∧
    recoverJob jid job (fuel+1) w
      = ((recoverJob jid2 j2 fuel { w1 with submits := s2 }).1,
         (cbs ++ [Ev.resubmit job.handle job.qobj j2.handle jid2])
           ++ (recoverJob jid2 j2 fuel { w1 with submits := s2 }).2.1,
         (recoverJob jid2 j2 fuel { w1 with submits := s2 }).2.2) := by
  refine ⟨safe_submit_ok_payload job.qobj w1.submits s2 j2 jid2 hsub, ?_⟩
  simp [recoverJob, recoveryStep, hpoll, hsub, hdead]

/-- Claim C5 witness: a job polled to CANCELLED; its payload 42 is read
back from the dead handle 1 and resubmitted, yielding job 7 with id "b",
and the loop continues with the new pair. -/
theorem recovery_resubmits_dead_job_witness :
    (⟨7, 42⟩ : JobHandle Nat).qobj = (⟨1, 42⟩ : JobHandle Nat).qobj ∧
    recoverJob "a" (⟨1, 42⟩ : JobHandle Nat) 2
        (⟨[StatusResp.ok JobStatus.CANCELLED], [], [], [],
          [SubmitResp.accepted 7 "b"]⟩ : World Nat Nat)
      = ((recoverJob "b" (⟨7, 42⟩ : JobHandle Nat) 1
            (⟨[], [], [], [], []⟩ : World Nat Nat)).1,
         ([Ev.callback "a" JobStatus.CANCELLED (some 0) 1]
            ++ [Ev.resubmit 1 42 7 "b"])
           ++ (recoverJob "b" (⟨7, 42⟩ : JobHandle Nat) 1
                (⟨[], [], [], [], []⟩ : World Nat Nat)).2.1,
         (recoverJob "b" (⟨7, 42⟩ : JobHandle Nat) 1
           (⟨[], [], [], [], []⟩ : World Nat Nat)).2.2) :=
  recovery_resubmits_dead_job "a" ⟨1, 42⟩ 1 _ JobStatus.CANCELLED
    [Ev.callback "a" JobStatus.CANCELLED (some 0) 1]
    (⟨[], [], [], [], [SubmitResp.accepted 7 "b"]⟩ : World Nat Nat)
    ⟨7, 42⟩ "b" [] rfl (by decide) rfl

/-- The direct (non-autorecover) fetch phase: one result consumed per job,
in order, with one `fetched` event per job and nothing else touched. -/
theorem fetchDirect_spec {Q R : Type} :
    ∀ (jobs : List (JobHandle Q × JobId)) (w : World Q R),
      jobs.length ≤ w.results.length →
      fetchDirect jobs w
        = (some (w.results.take jobs.length),
           jobs.map (fun jh => Ev.fetched jh.1.handle),
           { w with results := w.results.drop jobs.length }) := by
  intro jobs
  induction jobs with
  | nil =>
    intro w hle
    simp [fetchDirect]
  | cons jh rest ih =>
    intro w hle
    obtain ⟨job, jid⟩ := jh
    cases hw : w.results with
    | nil => rw [hw] at hle; simp at hle
    | cons r rrest =>
      have hle2 : rest.length ≤ rrest.length := by
        rw [hw] at hle
        simp at hle
        omega
      have hstep := ih { w with results := rrest } hle2
      simp [fetchDirect, hw, hstep]

/-- Claim C6: for a simulator-class backend, `run_qobj` runs no recovery
loop: once the chunks are submitted it performs exactly one blocking
result fetch per submitted job (consuming exactly one scripted result
each, in order, with no status probe, no queue-position query, no retrieve
and no re-submission), and returns the combination of exactly those
fetched results, whatever their success flags. -/
theorem run_qobj_simulator_no_recovery {E C H R : Type} (uuid : Nat → String)
    (qobj : QasmQobj E C H) (b : Backend) (maxOverride : Option Nat) (fuel : Nat)
    (w : World (QasmQobj E C H) R) (jobs : List (JobHandle (QasmQobj E C H) × JobId))
    (s1 : List SubmitResp)
    (hsim : b.simulator = true)
    (hsub : submitAll (_split_qobj_to_qobjs uuid qobj (effectiveMax b maxOverride))
        w.submits = (SubmitAllOut.ok jobs, s1))
    (hres : jobs.length ≤ w.results.length) :
    run_qobj uuid qobj (some b) maxOverride fuel w
      = (runFinal (w.results.take jobs.length),
         jobs.map (fun jh => Ev.fetched jh.1.handle),
         { w with submits := s1, results := w.results.drop jobs.length }) := by
  have hfd := fetchDirect_spec jobs { w with submits := s1 } hres
  simp [run_qobj, hsub, hsim, hfd]

/-- Claim C6 witness: 3 experiments, chunk size 2 (backend-reported),
2 chunks submitted; the two scripted results — the second one even
unsuccessful — are fetched once each and combined, the third never
consumed. -/
theorem run_qobj_simulator_no_recovery_witness :
    (⟨true, false, 2⟩ : Backend).simulator = true ∧
    run_qobj (fun _ => "u") (⟨"q", 0, 0, [10, 20, 30]⟩ : QasmQobj Nat Nat Nat)
        (some ⟨true, false, 2⟩) none 0
        (⟨[], [], [⟨true, [1]⟩, ⟨false, [2]⟩, ⟨true, [99]⟩], [],
          [SubmitResp.accepted 1 "a", SubmitResp.accepted 2 "b"]⟩ :
          World (QasmQobj Nat Nat Nat) Nat)
      = (runFinal [⟨true, [1]⟩, ⟨false, [2]⟩],
         [Ev.fetched 1, Ev.fetched 2],
         (⟨[], [], [⟨true, [99]⟩], [], []⟩ : World (QasmQobj Nat Nat Nat) Nat)) :=
  ⟨rfl,
    run_qobj_simulator_no_recovery (fun _ => "u") _ ⟨true, false, 2⟩ none 0 _
      [(⟨1, ⟨"u", 0, 0, [10, 20]⟩⟩, "a"), (⟨2, ⟨"u", 0, 0, [30]⟩⟩, "b")] []
      rfl rfl (by decide)⟩

/-- Claim C10: a batch with zero experiments yields zero chunks, zero
submissions and zero backend interactions of any kind, and `run_qobj`
returns `None` without raising. -/
theorem run_qobj_empty_batch {E C H R : Type} (uuid : Nat → String)
    (qobj : QasmQobj E C H) (b : Backend) (maxOverride : Option Nat) (fuel : Nat)
    (w : World (QasmQobj E C H) R)
    (hq : qobj.experiments = [])
    (hK : 1 ≤ effectiveMax b maxOverride) :
    run_qobj uuid qobj (some b) maxOverride fuel w = (RunOut.ok none, [], w) := by
  have hsplit : _split_qobj_to_qobjs uuid qobj (effectiveMax b maxOverride) = [] := by
    unfold _split_qobj_to_qobjs
    rw [hq]
    simp only [List.length_nil]
    rw [num_chunks_zero _ hK]
    simp
  cases hb : b.simulator <;>
    simp [run_qobj, hsplit, submitAll, hb, fetchDirect, runAll, runFinal]

/-- Claim C10 witness: an empty batch on a non-simulator backend with
reported maximum 3. -/
theorem run_qobj_empty_batch_witness :
    (⟨"q", 0, 0, []⟩ : QasmQobj Nat Nat Nat).experiments = [] ∧
    1 ≤ effectiveMax ⟨false, false, 3⟩ none ∧
    run_qobj (fun _ => "u") (⟨"q", 0, 0, []⟩ : QasmQobj Nat Nat Nat)
        (some ⟨false, false, 3⟩) none 0
        (⟨[], [], [], [], []⟩ : World (QasmQobj Nat Nat Nat) Nat)
      = (RunOut.ok none, [], (⟨[], [], [], [], []⟩ : World (QasmQobj Nat Nat Nat) Nat)) :=
  ⟨rfl, by decide,
    run_qobj_empty_batch (fun _ => "u") _ ⟨false, false, 3⟩ none 0 _ rfl (by decide)⟩

end RunCircuits
